import Mathlib

/-!
Verification of the natural-language specification of
AWSAutomatedDailyInstanceAMISnapshots (src/handler.py) against a shallow
embedding of the source.

The embedding translates the two procedures of handler.py —
`backup_tagged_instances_in_region` and `delete_expired_amis` — together
with the date handling they rely on (`datetime.date` arithmetic,
`strftime('%m-%d-%Y')`, `time.strptime(s, '%m-%d-%Y')` and `struct_time`
comparison) into executable Lean definitions.  Cloud calls are modelled as
events recorded in a trace; exceptions raised by a call are modelled by an
`Option String` error component that aborts the enclosing loop exactly
where the Python `try`/`except` structure lets it.
-/

/-! ## Data model: tags, instances, images (handler.py reads these from boto3) -/

/-- A tag as returned by the EC2 API: a `Key`/`Value` pair of strings. -/
structure Tag where
  key : String
  value : String
deriving DecidableEq, Repr

/-- An EC2 instance as read by handler.py: `InstanceId`, `State.Name`,
and its `Tags` list. -/
structure Ec2Instance where
  instanceId : String
  state : String
  tags : List Tag
deriving DecidableEq, Repr

/-- One entry of an image's `BlockDeviceMappings`: `ebs = some snapshotId`
when the mapping has an `Ebs` member (an associated storage volume),
`none` otherwise (e.g. ephemeral mappings). -/
structure BlockDeviceMapping where
  ebs : Option String
deriving DecidableEq, Repr

/-- An AMI as read by `delete_expired_amis`: `ImageId`, `Tags`,
`BlockDeviceMappings`. -/
structure Image where
  imageId : String
  tags : List Tag
  blockDeviceMappings : List BlockDeviceMapping
deriving DecidableEq, Repr

/-! ## Module-level configuration constants of handler.py -/

/-- handler.py: `aws_regions = [...]`. -/
def aws_regions : List String :=
  ["us-east-1", "us-east-2", "us-west-1", "us-west-2",
   "ap-northeast-1", "ap-northeast-2", "ap-northeast-3", "ap-south-1",
   "ap-southeast-1", "ap-southeast-2", "ca-central-1",
   "eu-central-1", "eu-west-1", "eu-west-2", "eu-west-3"]

/-- handler.py: `tags_to_find = ['backup', 'Backup']`. -/
def tags_to_find : List String := ["backup", "Backup"]

/-- handler.py: `default_retention_time = 7`. -/
def default_retention_time : Int := 7

/-- handler.py: `global_key_to_tag_on = "FarleysBackupInstanceRotater"`. -/
def global_key_to_tag_on : String := "FarleysBackupInstanceRotater"

/-! ## Dates (a model of Python `datetime.date`) -/

/-- A calendar date, the data of a Python `datetime.date`. -/
structure Date where
  year : Nat
  month : Nat
  day : Nat
deriving DecidableEq, Repr

/-- Gregorian leap-year rule, as implemented by Python's `calendar`/`datetime`. -/
def isLeap (y : Nat) : Bool :=
  y % 4 == 0 && (y % 100 != 0 || y % 400 == 0)

/-- Number of days in month `m` of year `y` (Gregorian calendar). -/
def daysInMonth (y m : Nat) : Nat :=
  if m = 2 then (if isLeap y then 29 else 28)
  else if m = 4 ∨ m = 6 ∨ m = 9 ∨ m = 11 then 30
  else 31

/-- A month/day combination `datetime.date` would accept. -/
def validDate (d : Date) : Bool :=
  decide (1 ≤ d.month) && decide (d.month ≤ 12) &&
  decide (1 ≤ d.day) && decide (d.day ≤ daysInMonth d.year d.month)

/-- Calendar successor of a date. -/
def nextDay (d : Date) : Date :=
  if d.day < daysInMonth d.year d.month then ⟨d.year, d.month, d.day + 1⟩
  else if d.month < 12 then ⟨d.year, d.month + 1, 1⟩
  else ⟨d.year + 1, 1, 1⟩

/-- Calendar predecessor of a date. -/
def prevDay (d : Date) : Date :=
  if 1 < d.day then ⟨d.year, d.month, d.day - 1⟩
  else if 1 < d.month then ⟨d.year, d.month - 1, daysInMonth d.year (d.month - 1)⟩
  else ⟨d.year - 1, 12, 31⟩

/-- Model of Python `date + timedelta(days=k)`: the `k`-fold calendar
successor (predecessor for negative `k`). -/
def addDays (d : Date) : Int → Date
  | Int.ofNat n => nextDay^[n] d
  | Int.negSucc n => prevDay^[n + 1] d

/-- Calendar order (year, then month, then day), non-strict. -/
def dateLe (a b : Date) : Bool :=
  if a.year ≠ b.year then decide (a.year < b.year)
  else if a.month ≠ b.month then decide (a.month < b.month)
  else decide (a.day ≤ b.day)

/-- Calendar order (year, then month, then day), strict. -/
def dateLt (a b : Date) : Bool :=
  if a.year ≠ b.year then decide (a.year < b.year)
  else if a.month ≠ b.month then decide (a.month < b.month)
  else decide (a.day < b.day)

/-! ## `time.struct_time` and its comparison

`delete_expired_amis` compares `time.strptime(...)` results, i.e. two
`struct_time` values, with `<=`.  `struct_time` is a 9-tuple
`(tm_year, tm_mon, tm_mday, tm_hour, tm_min, tm_sec, tm_wday, tm_yday,
tm_isdst)` and Python compares it lexicographically as a tuple.  A value
produced by `strptime(s, '%m-%d-%Y')` has hour/min/sec 0, `tm_isdst = -1`,
and `tm_wday`/`tm_yday` computed from the parsed year, month and day. -/

/-- Days in the months strictly before month `m` of year `y`. -/
def monthDaysBefore (y m : Nat) : Nat :=
  (List.range (m - 1)).foldl (fun acc i => acc + daysInMonth y (i + 1)) 0

/-- Day of the year (`tm_yday`), 1-based. -/
def dayOfYear (d : Date) : Nat := monthDaysBefore d.year d.month + d.day

/-- Proleptic-Gregorian ordinal, as `datetime.date.toordinal`
(day 1 = January 1 of year 1). -/
def toOrdinal (d : Date) : Nat :=
  365 * (d.year - 1) + ((d.year - 1) / 4 - (d.year - 1) / 100) +
    (d.year - 1) / 400 + dayOfYear d

/-- Weekday (`tm_wday`, Monday = 0), from the ordinal. -/
def wdayOf (d : Date) : Nat := (toOrdinal d + 6) % 7

/-- The nine integer fields of a Python `time.struct_time`. -/
structure StructTime where
  tm_year : Int
  tm_mon : Int
  tm_mday : Int
  tm_hour : Int
  tm_min : Int
  tm_sec : Int
  tm_wday : Int
  tm_yday : Int
  tm_isdst : Int
deriving DecidableEq, Repr

/-- Python tuple comparison `a <= b` on the nine `struct_time` fields:
lexicographic. -/
def structTimeLe (a b : StructTime) : Bool :=
  if a.tm_year ≠ b.tm_year then decide (a.tm_year < b.tm_year)
  else if a.tm_mon ≠ b.tm_mon then decide (a.tm_mon < b.tm_mon)
  else if a.tm_mday ≠ b.tm_mday then decide (a.tm_mday < b.tm_mday)
  else if a.tm_hour ≠ b.tm_hour then decide (a.tm_hour < b.tm_hour)
  else if a.tm_min ≠ b.tm_min then decide (a.tm_min < b.tm_min)
  else if a.tm_sec ≠ b.tm_sec then decide (a.tm_sec < b.tm_sec)
  else if a.tm_wday ≠ b.tm_wday then decide (a.tm_wday < b.tm_wday)
  else if a.tm_yday ≠ b.tm_yday then decide (a.tm_yday < b.tm_yday)
  else decide (a.tm_isdst ≤ b.tm_isdst)

/-- The `struct_time` produced by `time.strptime(s, '%m-%d-%Y')` for a
date-only string: time fields 0, `tm_isdst = -1`, derived `tm_wday` and
`tm_yday`. -/
def dateToStructTime (d : Date) : StructTime :=
  ⟨d.year, d.month, d.day, 0, 0, 0, wdayOf d, dayOfYear d, -1⟩

/-! ## Digit strings: `strftime('%m-%d-%Y')` and `strptime('%m-%d-%Y')` -/

/-- The decimal digit character for `n` (`n ≤ 9`). -/
def digitChar (n : Nat) : Char :=
  if n = 0 then '0' else if n = 1 then '1' else if n = 2 then '2'
  else if n = 3 then '3' else if n = 4 then '4' else if n = 5 then '5'
  else if n = 6 then '6' else if n = 7 then '7' else if n = 8 then '8'
  else '9'

/-- Numeric value of a decimal digit character, `none` for a non-digit. -/
def charDigit (c : Char) : Option Nat :=
  if c = '0' then some 0 else if c = '1' then some 1 else if c = '2' then some 2
  else if c = '3' then some 3 else if c = '4' then some 4 else if c = '5' then some 5
  else if c = '6' then some 6 else if c = '7' then some 7 else if c = '8' then some 8
  else if c = '9' then some 9 else none

/-- Two-digit zero-padded rendering (`%m`, `%d` of `strftime`), for `n < 100`. -/
def pad2 (n : Nat) : List Char := [digitChar (n / 10), digitChar (n % 10)]

/-- Four-digit rendering (`%Y` of `strftime` for years 1000–9999). -/
def year4 (y : Nat) : List Char :=
  [digitChar (y / 1000), digitChar (y / 100 % 10), digitChar (y / 10 % 10),
   digitChar (y % 10)]

/-- Character list of `d.strftime('%m-%d-%Y')`. -/
def formatDateChars (d : Date) : List Char :=
  pad2 d.month ++ '-' :: pad2 d.day ++ '-' :: year4 d.year

/-- `d.strftime('%m-%d-%Y')`. -/
def formatDate (d : Date) : String := String.mk (formatDateChars d)

/-- Decimal value of a non-empty all-digit character list, accumulator form. -/
def digitsValAux (acc : Nat) : List Char → Option Nat
  | [] => some acc
  | c :: rest =>
    match charDigit c with
    | some d => digitsValAux (10 * acc + d) rest
    | none => none

/-- Decimal value of a character list: `none` when empty or containing a
non-digit. -/
def digitsVal (cs : List Char) : Option Nat :=
  match cs with
  | [] => none
  | _ => digitsValAux 0 cs

/-- Split a character list at every dash, keeping (possibly empty) fields. -/
def splitDash : List Char → List (List Char)
  | [] => [[]]
  | c :: rest =>
    if c = '-' then [] :: splitDash rest
    else
      match splitDash rest with
      | [] => [[c]]
      | p :: ps => (c :: p) :: ps

/-- Model of `time.strptime(s, '%m-%d-%Y')` on the year–month–day data:
`%m` and `%d` match one or two digits with values 1–12 and 1–31, `%Y`
matches exactly four digits, the dashes are literal, the whole string must
be consumed, and the parsed combination must be an acceptable
`datetime.date` (day within the month, year at least 1) — otherwise
`strptime` raises `ValueError` (modelled as `none`). -/
def parseDateChars (cs : List Char) : Option Date :=
  match splitDash cs with
  | [p1, p2, p3] =>
    match digitsVal p1, digitsVal p2, digitsVal p3 with
    | some m, some d, some y =>
      if p1.length ≤ 2 ∧ 1 ≤ m ∧ m ≤ 12 ∧ p2.length ≤ 2 ∧ 1 ≤ d ∧ d ≤ 31 ∧
         p3.length = 4 ∧ 1 ≤ y ∧ d ≤ daysInMonth y m
      then some ⟨y, m, d⟩ else none
    | _, _, _ => none
  | _ => none

/-- `time.strptime(s, '%m-%d-%Y')` as a date, `none` when it would raise. -/
def parseDate (s : String) : Option Date := parseDateChars s.toList

/-- Model of Python `int(s)` on an optionally signed decimal string with
optional surrounding spaces (`ValueError` is `none`). -/
def pythonInt (s : String) : Option Int :=
  let cs := ((s.toList.dropWhile (fun c => c = ' ')).reverse.dropWhile
    (fun c => c = ' ')).reverse
  match cs with
  | '+' :: rest => (digitsVal rest).map Int.ofNat
  | '-' :: rest => (digitsVal rest).map (fun v => -(v : Int))
  | rest => (digitsVal rest).map Int.ofNat

/-! ## Backup procedure (handler.py `backup_tagged_instances_in_region`) -/

/-- handler.py lines 60–63: first `Name` tag value, falling back to the
instance ID when the lookup raises (no match). -/
def instanceDisplayName (inst : Ec2Instance) : String :=
  match inst.tags.filter (fun t => t.key == "Name") with
  | t :: _ => t.value
  | [] => inst.instanceId

/-- handler.py line 68: the comprehension
`[int(t.get('Value')) for t in instance['Tags'] if t['Key'] == 'Retention']` —
`none` when any element raises `ValueError` (mirroring the `try` body). -/
def parseAllRetention : List Tag → Option (List Int)
  | [] => some []
  | t :: rest =>
    if t.key == "Retention" then
      match pythonInt t.value, parseAllRetention rest with
      | some v, some vs => some (v :: vs)
      | _, _ => none
    else parseAllRetention rest

/-- handler.py lines 66–70: the `[0]` of the comprehension inside
`try`/`except`, defaulting to `default_retention_time` when the
comprehension raises or is empty. -/
def retentionDays (tags : List Tag) : Int :=
  match parseAllRetention tags with
  | some (v :: _) => v
  | _ => default_retention_time

/-- handler.py lines 84–87: the tag list sent by `create_tags` — the
instance's own tags with `DeleteAfter`, `OriginalInstanceID` and the
management marker appended. -/
def imageTagsFor (today : Date) (inst : Ec2Instance) : List Tag :=
  inst.tags ++
    [⟨"DeleteAfter", formatDate (addDays today (retentionDays inst.tags))⟩,
     ⟨"OriginalInstanceID", inst.instanceId⟩,
     ⟨global_key_to_tag_on, "true"⟩]

/-- Observable cloud-API calls made by the two procedures. -/
inductive Event where
  | createImage (instanceId : String) (name : String)
  | createTags (imageTags : List Tag)
  | deregister (imageId : String)
  | deregisterFailed (imageId : String)
  | deleteSnapshot (snapshotId : String)
deriving DecidableEq, Repr

/-- handler.py lines 45–52: flatten reservations into instances, skipping
any whose `State.Name` equals `'terminated'` (imperative accumulator form,
as in the source's nested `for` loops). -/
def collectInstances (reservations : List (List Ec2Instance)) : List Ec2Instance :=
  reservations.foldl
    (fun acc r =>
      r.foldl
        (fun acc2 i => if i.state != "terminated" then acc2 ++ [i] else acc2)
        acc)
    []

/-- handler.py lines 74–91: per-instance body of the backup loop —
`create_image` with the computed name, then `create_tags` with the
augmented tag list. -/
def backupOneInstance (today : Date) (timestamp : String) (inst : Ec2Instance) :
    List Event :=
  [Event.createImage inst.instanceId
      (instanceDisplayName inst ++ "-backup-" ++ timestamp),
   Event.createTags (imageTagsFor today inst)]

/-- handler.py lines 54–91: the backup loop over the flattened instance
list. -/
def backupRun (today : Date) (timestamp : String)
    (reservations : List (List Ec2Instance)) : List Event :=
  (collectInstances reservations).flatMap (backupOneInstance today timestamp)

/-! ## Expiry procedure (handler.py `delete_expired_amis`) -/

/-- Which cloud calls raise, for a given run: `deregister_image` failures
are caught by the source, `delete_snapshot` failures are not. -/
structure Ec2Behavior where
  deregisterFails : String → Bool
  deleteSnapshotFails : String → Bool

/-- handler.py lines 120–124: first `DeleteAfter` tag value of an AMI,
`none` when the lookup raises (the `except` path that skips the image). -/
def amiDeleteAfter (ami : Image) : Option String :=
  match ami.tags.filter (fun t => t.key == "DeleteAfter") with
  | t :: _ => some t.value
  | [] => none

/-- handler.py line 141: snapshot IDs of the block-device mappings that
have an `Ebs` member. -/
def ebsSnapshots (ami : Image) : List String :=
  ami.blockDeviceMappings.filterMap (fun b => b.ebs)

/-- The `ValueError` raised by `time.strptime` on unparseable input. -/
def valueErrorMsg : String := "ValueError: time data does not match format"

/-- The error raised by a failing `ec2.delete_snapshot` call. -/
def snapshotErrorMsg : String := "ClientError: delete_snapshot failed"

/-- handler.py lines 141–144: the snapshot-deletion loop.  Each call is
recorded; a failing call raises (no `try` around it), so the remaining
snapshots are not attempted. -/
def deleteSnapshotsRun (beh : Ec2Behavior) : List String → List Event × Option String
  | [] => ([], none)
  | s :: rest =>
    if beh.deleteSnapshotFails s then ([Event.deleteSnapshot s], some snapshotErrorMsg)
    else
      match deleteSnapshotsRun beh rest with
      | (evs, err) => (Event.deleteSnapshot s :: evs, err)

/-- handler.py lines 116–144: one iteration of the expiry loop — find the
`DeleteAfter` tag (skip when absent), `strptime` it (raise when
unparseable), skip when `today_date <= delete_date`, otherwise attempt
`deregister_image` (failure caught and logged) and then delete the EBS
snapshots. -/
def processImage (beh : Ec2Behavior) (today : Date) (ami : Image) :
    List Event × Option String :=
  match amiDeleteAfter ami with
  | none => ([], none)
  | some s =>
    match parseDate s with
    | none => ([], some valueErrorMsg)
    | some d =>
      if structTimeLe (dateToStructTime today) (dateToStructTime d) then ([], none)
      else
        let dereg :=
          if beh.deregisterFails ami.imageId then
            [Event.deregister ami.imageId, Event.deregisterFailed ami.imageId]
          else [Event.deregister ami.imageId]
        match deleteSnapshotsRun beh (ebsSnapshots ami) with
        | (snapEvs, snapErr) => (dereg ++ snapEvs, snapErr)

/-- The expiry loop over the candidate images; an uncaught exception in one
iteration aborts the remaining iterations. -/
def runExpiry (beh : Ec2Behavior) (today : Date) : List Image → List Event × Option String
  | [] => ([], none)
  | ami :: rest =>
    match processImage beh today ami with
    | (evs, some m) => (evs, some m)
    | (evs, none) =>
      match runExpiry beh today rest with
      | (evs2, err2) => (evs ++ evs2, err2)

/-! ## Region driver and the OptInRequired tolerance -/

/-- Whether `pat` is a prefix of the second list. -/
def isPrefixList : List Char → List Char → Bool
  | [], _ => true
  | _ :: _, [] => false
  | p :: ps, c :: cs => p = c && isPrefixList ps cs

/-- Whether `pat` occurs as a contiguous sublist (Python substring `in`). -/
def containsSub (pat : List Char) : List Char → Bool
  | [] => isPrefixList pat []
  | c :: cs => isPrefixList pat (c :: cs) || containsSub pat cs

/-- handler.py lines 39 and 107: `'OptInRequired' in str(sys.exc_info())`. -/
def mentionsOptIn (msg : String) : Bool :=
  containsSub "OptInRequired".toList msg.toList

/-- Inputs of one region's run: the listing results (or the exception text
when listing raises), the failure behavior of the delete calls, today's
date and the name timestamp. -/
structure RegionEnv where
  instancesListing : Except String (List (List Ec2Instance))
  imagesListing : Except String (List Image)
  behavior : Ec2Behavior
  today : Date
  timestamp : String

/-- handler.py lines 30–91: `backup_tagged_instances_in_region` — a listing
failure mentioning OptInRequired returns quietly, any other listing failure
re-raises, otherwise the backup loop runs. -/
def backupProcedure (env : RegionEnv) : List Event × Option String :=
  match env.instancesListing with
  | Except.error msg => if mentionsOptIn msg then ([], none) else ([], some msg)
  | Except.ok reservations => (backupRun env.today env.timestamp reservations, none)

/-- handler.py lines 97–144: `delete_expired_amis` — same OptInRequired
tolerance around the image listing, then the expiry loop. -/
def expiryProcedure (env : RegionEnv) : List Event × Option String :=
  match env.imagesListing with
  | Except.error msg => if mentionsOptIn msg then ([], none) else ([], some msg)
  | Except.ok amis => runExpiry env.behavior env.today amis

/-- handler.py lines 151–162 for one region: backup then expiry; an
uncaught exception from the backup aborts before the expiry runs. -/
def runRegion (env : RegionEnv) : List Event × Option String :=
  match backupProcedure env with
  | (evs, some m) => (evs, some m)
  | (evs, none) =>
    match expiryProcedure env with
    | (evs2, err2) => (evs ++ evs2, err2)

/-- handler.py `lambda_handler`: the sequential loop over regions; an
uncaught exception aborts the remaining regions. -/
def lambdaHandler : List RegionEnv → List Event × Option String
  | [] => ([], none)
  | env :: rest =>
    match runRegion env with
    | (evs, some m) => (evs, some m)
    | (evs, none) =>
      match lambdaHandler rest with
      | (evs2, err2) => (evs ++ evs2, err2)

/-! ## Helper lemmas: digits and the format/parse round trip -/

lemma charDigit_digitChar : ∀ n : Nat, n < 10 → charDigit (digitChar n) = some n := by
  decide

lemma digitChar_ne_dash : ∀ n : Nat, n < 10 → ¬ ('-' = digitChar n) := by
  decide

lemma digitsVal_pad2 (n : Nat) (h : n < 100) : digitsVal (pad2 n) = some n := by
  have h1 : n / 10 < 10 := by omega
  have h2 : n % 10 < 10 := by omega
  simp [pad2, digitsVal, digitsValAux, charDigit_digitChar _ h1,
    charDigit_digitChar _ h2]
  omega

lemma digitsVal_year4 (y : Nat) (h : y < 10000) : digitsVal (year4 y) = some y := by
  have h1 : y / 1000 < 10 := by omega
  have h2 : y / 100 % 10 < 10 := by omega
  have h3 : y / 10 % 10 < 10 := by omega
  have h4 : y % 10 < 10 := by omega
  simp [year4, digitsVal, digitsValAux, charDigit_digitChar _ h1,
    charDigit_digitChar _ h2, charDigit_digitChar _ h3, charDigit_digitChar _ h4]
  omega

lemma dash_not_mem_pad2 (n : Nat) (h : n < 100) : ¬ '-' ∈ pad2 n := by
  have h1 := digitChar_ne_dash (n / 10) (by omega)
  have h2 := digitChar_ne_dash (n % 10) (by omega)
  simp [pad2]
  exact ⟨h1, h2⟩

lemma dash_not_mem_year4 (y : Nat) (h : y < 10000) : ¬ '-' ∈ year4 y := by
  have h1 := digitChar_ne_dash (y / 1000) (by omega)
  have h2 := digitChar_ne_dash (y / 100 % 10) (by omega)
  have h3 := digitChar_ne_dash (y / 10 % 10) (by omega)
  have h4 := digitChar_ne_dash (y % 10) (by omega)
  simp [year4]
  exact ⟨h1, h2, h3, h4⟩

lemma splitDash_no_dash (l : List Char) (h : ¬ '-' ∈ l) : splitDash l = [l] := by
  induction l with
  | nil => rfl
  | cons c cs ih =>
    have hc : ¬ c = '-' := fun hh => h (by simp [hh])
    have hcs : ¬ '-' ∈ cs := fun hh => h (by simp [hh])
    simp [splitDash, hc, ih hcs]

lemma splitDash_append (l r : List Char) (h : ¬ '-' ∈ l) :
    splitDash (l ++ '-' :: r) = l :: splitDash r := by
  induction l with
  | nil => simp [splitDash]
  | cons c cs ih =>
    have hc : ¬ c = '-' := fun hh => h (by simp [hh])
    have hcs : ¬ '-' ∈ cs := fun hh => h (by simp [hh])
    simp [splitDash, hc, ih hcs]

lemma validDate_iff (d : Date) :
    validDate d = true ↔
      1 ≤ d.month ∧ d.month ≤ 12 ∧ 1 ≤ d.day ∧ d.day ≤ daysInMonth d.year d.month := by
  simp [validDate, and_assoc]

lemma daysInMonth_pos (y m : Nat) : 1 ≤ daysInMonth y m := by
  unfold daysInMonth
  split_ifs <;> omega

lemma daysInMonth_le_31 (y m : Nat) : daysInMonth y m ≤ 31 := by
  unfold daysInMonth
  split_ifs <;> omega

theorem parseDate_formatDate (d : Date) (hv : validDate d = true)
    (h1 : 1000 ≤ d.year) (h2 : d.year ≤ 9999) :
    parseDate (formatDate d) = some d := by
  obtain ⟨y, m, day⟩ := d
  rw [validDate_iff] at hv
  simp only at hv h1 h2
  have hm99 : m < 100 := by omega
  have hd31 : day ≤ daysInMonth y m := hv.2.2.2
  have hday99 : day < 100 := by
    have := daysInMonth_le_31 y m
    omega
  have hy10000 : y < 10000 := by omega
  have hsplit : splitDash (formatDateChars ⟨y, m, day⟩) =
      [pad2 m, pad2 day, year4 y] := by
    show splitDash (pad2 m ++ '-' :: (pad2 day ++ '-' :: year4 y)) = _
    rw [splitDash_append _ _ (dash_not_mem_pad2 m hm99),
      splitDash_append _ _ (dash_not_mem_pad2 day hday99),
      splitDash_no_dash _ (dash_not_mem_year4 y hy10000)]
  show parseDateChars (formatDateChars ⟨y, m, day⟩) = some ⟨y, m, day⟩
  rw [parseDateChars, hsplit]
  dsimp only
  rw [digitsVal_pad2 m hm99, digitsVal_pad2 day hday99, digitsVal_year4 y hy10000]
  dsimp only
  have hcond : (pad2 m).length ≤ 2 ∧ 1 ≤ m ∧ m ≤ 12 ∧ (pad2 day).length ≤ 2 ∧
      1 ≤ day ∧ day ≤ 31 ∧ (year4 y).length = 4 ∧ 1 ≤ y ∧ day ≤ daysInMonth y m := by
    have := daysInMonth_le_31 y m
    refine ⟨by simp [pad2], hv.1, hv.2.1, by simp [pad2], hv.2.2.1, by omega,
      by simp [year4], by omega, hd31⟩
  rw [if_pos hcond]

/-! ## Helper lemmas: calendar order and `struct_time` comparison -/

lemma dateLt_iff (a b : Date) :
    dateLt a b = true ↔
      (a.year < b.year ∨ (a.year = b.year ∧
        (a.month < b.month ∨ (a.month = b.month ∧ a.day < b.day)))) := by
  obtain ⟨y1, m1, d1⟩ := a
  obtain ⟨y2, m2, d2⟩ := b
  simp only [dateLt]
  split_ifs <;> simp only [decide_eq_true_eq] <;> simp_all

lemma dateLe_iff (a b : Date) :
    dateLe a b = true ↔
      (a.year < b.year ∨ (a.year = b.year ∧
        (a.month < b.month ∨ (a.month = b.month ∧ a.day ≤ b.day)))) := by
  obtain ⟨y1, m1, d1⟩ := a
  obtain ⟨y2, m2, d2⟩ := b
  simp only [dateLe]
  split_ifs <;> simp only [decide_eq_true_eq] <;> simp_all

lemma dateLe_eq_not_dateLt (a b : Date) : dateLe a b = !dateLt b a := by
  have h1 := dateLe_iff a b
  have h2 := dateLt_iff b a
  cases hab : dateLe a b <;> cases hba : dateLt b a <;> simp_all <;> omega

lemma dateLt_trans (a b c : Date) (h1 : dateLt a b = true) (h2 : dateLt b c = true) :
    dateLt a c = true := by
  rw [dateLt_iff] at h1 h2 ⊢
  omega

lemma structTimeLe_eq_dateLe (a b : Date) :
    structTimeLe (dateToStructTime a) (dateToStructTime b) = dateLe a b := by
  obtain ⟨y1, m1, d1⟩ := a
  obtain ⟨y2, m2, d2⟩ := b
  by_cases hy : y1 = y2
  · subst hy
    by_cases hm : m1 = m2
    · subst hm
      by_cases hd : d1 = d2
      · subst hd
        simp [structTimeLe, dateToStructTime, dateLe]
      · have hdi : ((d1 : Int) ≠ (d2 : Int)) := by exact_mod_cast hd
        simp only [structTimeLe, dateToStructTime, dateLe]
        rw [if_neg (by simp), if_neg (by simp), if_pos hdi,
          if_neg (fun hh => hh rfl), if_neg (fun hh => hh rfl)]
        rw [decide_eq_decide]
        omega
    · have hmi : ((m1 : Int) ≠ (m2 : Int)) := by exact_mod_cast hm
      simp only [structTimeLe, dateToStructTime, dateLe]
      rw [if_neg (by simp), if_pos hmi, if_neg (fun hh => hh rfl), if_pos hm]
      rw [decide_eq_decide]
      omega
  · have hyi : ((y1 : Int) ≠ (y2 : Int)) := by exact_mod_cast hy
    simp only [structTimeLe, dateToStructTime, dateLe]
    rw [if_pos hyi, if_pos hy]
    rw [decide_eq_decide]
    omega

/-! ## Helper lemmas: day stepping -/

lemma daysInMonth_twelve (y : Nat) : daysInMonth y 12 = 31 := by
  simp [daysInMonth]

lemma nextDay_validDate (d : Date) (hv : validDate d = true) :
    validDate (nextDay d) = true := by
  obtain ⟨y, m, day⟩ := d
  rw [validDate_iff] at hv
  simp only at hv
  unfold nextDay
  dsimp only
  split_ifs with h1 h2
  · rw [validDate_iff]; dsimp only; omega
  · rw [validDate_iff]; dsimp only
    exact ⟨by omega, by omega, by omega, daysInMonth_pos y (m + 1)⟩
  · rw [validDate_iff]; dsimp only
    exact ⟨by omega, by omega, by omega, daysInMonth_pos (y + 1) 1⟩

lemma prevDay_validDate (d : Date) (hv : validDate d = true) :
    validDate (prevDay d) = true := by
  obtain ⟨y, m, day⟩ := d
  rw [validDate_iff] at hv
  simp only at hv
  unfold prevDay
  dsimp only
  split_ifs with h1 h2
  · rw [validDate_iff]; dsimp only; omega
  · rw [validDate_iff]; dsimp only
    exact ⟨by omega, by omega, daysInMonth_pos y (m - 1), le_refl _⟩
  · rw [validDate_iff]; dsimp only
    rw [daysInMonth_twelve]
    omega

lemma prevDay_year_le (d : Date) : (prevDay d).year ≤ d.year := by
  obtain ⟨y, m, day⟩ := d
  unfold prevDay
  dsimp only
  split_ifs <;> dsimp only <;> omega

lemma prevDay_lt (d : Date) (hv : validDate d = true) (hy : 1 ≤ d.year) :
    dateLt (prevDay d) d = true := by
  obtain ⟨y, m, day⟩ := d
  rw [validDate_iff] at hv
  simp only at hv hy
  unfold prevDay
  dsimp only
  split_ifs with h1 h2 <;> rw [dateLt_iff] <;> dsimp only <;> omega

lemma iter_prevDay_validDate (n : Nat) (d : Date) (hv : validDate d = true) :
    validDate (prevDay^[n] d) = true := by
  induction n with
  | zero => simpa using hv
  | succ k ih => rw [Function.iterate_succ_apply']; exact prevDay_validDate _ ih

lemma iter_nextDay_validDate (n : Nat) (d : Date) (hv : validDate d = true) :
    validDate (nextDay^[n] d) = true := by
  induction n with
  | zero => simpa using hv
  | succ k ih => rw [Function.iterate_succ_apply']; exact nextDay_validDate _ ih

lemma addDays_validDate (d : Date) (k : Int) (hv : validDate d = true) :
    validDate (addDays d k) = true := by
  cases k with
  | ofNat n => simpa only [addDays] using iter_nextDay_validDate n d hv
  | negSucc n => simpa only [addDays] using iter_prevDay_validDate (n + 1) d hv

lemma iter_prevDay_lt (d : Date) (n : Nat) (hv : validDate d = true)
    (hy : 1 ≤ (prevDay^[n + 1] d).year) : dateLt (prevDay^[n + 1] d) d = true := by
  induction n with
  | zero =>
    rw [Function.iterate_one] at hy ⊢
    have := prevDay_year_le d
    exact prevDay_lt d hv (by omega)
  | succ k ih =>
    rw [Function.iterate_succ_apply'] at hy ⊢
    have hx := prevDay_year_le (prevDay^[k + 1] d)
    have hxy : 1 ≤ (prevDay^[k + 1] d).year := by omega
    have hlt1 : dateLt (prevDay (prevDay^[k + 1] d)) (prevDay^[k + 1] d) = true :=
      prevDay_lt _ (iter_prevDay_validDate (k + 1) d hv) hxy
    exact dateLt_trans _ _ _ hlt1 (ih hxy)

lemma addDays_negSucc_lt (d : Date) (n : Nat) (hv : validDate d = true)
    (hy : 1 ≤ (addDays d (Int.negSucc n)).year) :
    dateLt (addDays d (Int.negSucc n)) d = true := by
  simpa only [addDays] using iter_prevDay_lt d n hv (by simpa only [addDays] using hy)

/-! ## Helper lemmas: retention parsing and the instance flattening -/

lemma parseAllRetention_of_filter_nil (tags : List Tag)
    (h : tags.filter (fun tg => tg.key == "Retention") = []) :
    parseAllRetention tags = some [] := by
  induction tags with
  | nil => rfl
  | cons t rest ih =>
    by_cases hk : t.key == "Retention"
    · simp [List.filter_cons, hk] at h
    · simp only [List.filter_cons, hk] at h
      simp only [parseAllRetention, hk, Bool.false_eq_true, if_false]
      exact ih h

lemma parseAllRetention_of_filter_single (tags : List Tag) (t : Tag)
    (h : tags.filter (fun tg => tg.key == "Retention") = [t]) :
    parseAllRetention tags = (pythonInt t.value).map (fun v => [v]) := by
  induction tags with
  | nil => simp at h
  | cons u rest ih =>
    by_cases hk : u.key == "Retention"
    · simp only [List.filter_cons, hk, if_true] at h
      obtain ⟨hu, hrest⟩ := List.cons_eq_cons.mp h
      subst hu
      simp only [parseAllRetention, hk, if_true,
        parseAllRetention_of_filter_nil rest hrest]
      cases pythonInt u.value <;> rfl
    · simp only [List.filter_cons, hk, Bool.false_eq_true, if_false] at h
      simp only [parseAllRetention, hk, Bool.false_eq_true, if_false]
      exact ih h

lemma retentionDays_of_filter_single (tags : List Tag) (t : Tag)
    (h : tags.filter (fun tg => tg.key == "Retention") = [t]) :
    retentionDays tags =
      match pythonInt t.value with
      | some v => v
      | none => default_retention_time := by
  rw [retentionDays, parseAllRetention_of_filter_single tags t h]
  cases pythonInt t.value <;> rfl

lemma retentionDays_of_filter_nil (tags : List Tag)
    (h : tags.filter (fun tg => tg.key == "Retention") = []) :
    retentionDays tags = default_retention_time := by
  rw [retentionDays, parseAllRetention_of_filter_nil tags h]

lemma foldl_filter_inner (r : List Ec2Instance) (acc : List Ec2Instance) :
    r.foldl
      (fun acc2 i => if i.state != "terminated" then acc2 ++ [i] else acc2) acc =
      acc ++ r.filter (fun i => i.state != "terminated") := by
  induction r generalizing acc with
  | nil => simp
  | cons i rest ih =>
    by_cases hs : i.state != "terminated"
    · simp only [List.foldl_cons, hs, if_true, List.filter_cons, ih]
      simp
    · simp only [Bool.not_eq_true] at hs
      simp only [List.foldl_cons, hs, List.filter_cons, ih]
      simp

lemma collectInstances_eq (reservations : List (List Ec2Instance)) :
    collectInstances reservations =
      reservations.flatten.filter (fun i => i.state != "terminated") := by
  suffices h : ∀ acc, reservations.foldl
      (fun acc r => r.foldl
        (fun acc2 i => if i.state != "terminated" then acc2 ++ [i] else acc2) acc)
      acc = acc ++ reservations.flatten.filter (fun i => i.state != "terminated") by
    simpa [collectInstances] using h []
  induction reservations with
  | nil => simp
  | cons r rest ih =>
    intro acc
    rw [List.foldl_cons, foldl_filter_inner, ih]
    simp [List.filter_append]

/-! ## Helper lemmas: the expiry loop -/

lemma deleteSnapshotsRun_events (beh : Ec2Behavior) (l : List String) :
    ∀ e ∈ (deleteSnapshotsRun beh l).1, ∃ sid, e = Event.deleteSnapshot sid := by
  induction l with
  | nil => simp [deleteSnapshotsRun]
  | cons s rest ih =>
    by_cases hf : beh.deleteSnapshotFails s
    · simp [deleteSnapshotsRun, hf]
    · simp only [deleteSnapshotsRun, hf, Bool.false_eq_true, if_false]
      intro e he
      rcases List.mem_cons.mp he with h | h
      · exact ⟨s, h⟩
      · exact ih e h

lemma deleteSnapshotsRun_stop (beh : Ec2Behavior) (pre : List String) (sid : String)
    (post : List String) (hpre : ∀ x ∈ pre, beh.deleteSnapshotFails x = false)
    (hsid : beh.deleteSnapshotFails sid = true) :
    deleteSnapshotsRun beh (pre ++ sid :: post) =
      (pre.map Event.deleteSnapshot ++ [Event.deleteSnapshot sid],
       some snapshotErrorMsg) := by
  induction pre with
  | nil => simp [deleteSnapshotsRun, hsid]
  | cons x rest ih =>
    have hx : beh.deleteSnapshotFails x = false := hpre x (by simp)
    have hrest : ∀ z ∈ rest, beh.deleteSnapshotFails z = false :=
      fun z hz => hpre z (by simp [hz])
    simp only [List.cons_append, deleteSnapshotsRun, hx, Bool.false_eq_true, if_false]
    simp [ih hrest]

lemma deleteSnapshotsRun_ok (beh : Ec2Behavior) (l : List String)
    (h : ∀ x ∈ l, beh.deleteSnapshotFails x = false) :
    deleteSnapshotsRun beh l = (l.map Event.deleteSnapshot, none) := by
  induction l with
  | nil => rfl
  | cons x rest ih =>
    have hx : beh.deleteSnapshotFails x = false := h x (by simp)
    have hrest : ∀ z ∈ rest, beh.deleteSnapshotFails z = false :=
      fun z hz => h z (by simp [hz])
    simp only [deleteSnapshotsRun, hx, Bool.false_eq_true, if_false, ih hrest,
      List.map_cons]

lemma processImage_of_absent (beh : Ec2Behavior) (today : Date) (ami : Image)
    (h : amiDeleteAfter ami = none) : processImage beh today ami = ([], none) := by
  simp [processImage, h]

lemma processImage_of_badparse (beh : Ec2Behavior) (today : Date) (ami : Image)
    (s : String) (h1 : amiDeleteAfter ami = some s) (h2 : parseDate s = none) :
    processImage beh today ami = ([], some valueErrorMsg) := by
  simp [processImage, h1, h2]

lemma processImage_of_skip (beh : Ec2Behavior) (today : Date) (ami : Image)
    (s : String) (d : Date) (h1 : amiDeleteAfter ami = some s)
    (h2 : parseDate s = some d) (h3 : dateLt d today = false) :
    processImage beh today ami = ([], none) := by
  have hle : structTimeLe (dateToStructTime today) (dateToStructTime d) = true := by
    rw [structTimeLe_eq_dateLe, dateLe_eq_not_dateLt, h3]
    rfl
  simp [processImage, h1, h2, hle]

lemma processImage_of_expired (beh : Ec2Behavior) (today : Date) (ami : Image)
    (s : String) (d : Date) (h1 : amiDeleteAfter ami = some s)
    (h2 : parseDate s = some d) (h3 : dateLt d today = true) :
    processImage beh today ami =
      ((if beh.deregisterFails ami.imageId then
          [Event.deregister ami.imageId, Event.deregisterFailed ami.imageId]
        else [Event.deregister ami.imageId]) ++
        (deleteSnapshotsRun beh (ebsSnapshots ami)).1,
       (deleteSnapshotsRun beh (ebsSnapshots ami)).2) := by
  have hle : structTimeLe (dateToStructTime today) (dateToStructTime d) = false := by
    rw [structTimeLe_eq_dateLe, dateLe_eq_not_dateLt, h3]
    rfl
  simp [processImage, h1, h2, hle]

lemma runExpiry_cons_ok (beh : Ec2Behavior) (today : Date) (ami : Image)
    (rest : List Image) (evs : List Event)
    (h : processImage beh today ami = (evs, none)) :
    runExpiry beh today (ami :: rest) =
      (evs ++ (runExpiry beh today rest).1, (runExpiry beh today rest).2) := by
  simp [runExpiry, h]

lemma runExpiry_cons_raise (beh : Ec2Behavior) (today : Date) (ami : Image)
    (rest : List Image) (evs : List Event) (m : String)
    (h : processImage beh today ami = (evs, some m)) :
    runExpiry beh today (ami :: rest) = (evs, some m) := by
  simp [runExpiry, h]

lemma dateLt_irrefl (a : Date) : dateLt a a = false := by
  rw [Bool.eq_false_iff]
  intro h
  rw [dateLt_iff] at h
  omega

lemma dateLe_true_iff_not_lt (a b : Date) : dateLe a b = true ↔ dateLt b a = false := by
  rw [dateLe_eq_not_dateLt]
  cases dateLt b a <;> simp

lemma expired_trace_head (beh : Ec2Behavior) (today : Date) (ami : Image)
    (s : String) (d : Date) (h1 : amiDeleteAfter ami = some s)
    (h2 : parseDate s = some d) (h3 : dateLt d today = true) :
    ∃ tail, (processImage beh today ami).1 = Event.deregister ami.imageId :: tail := by
  rw [processImage_of_expired beh today ami s d h1 h2 h3]
  by_cases hf : beh.deregisterFails ami.imageId
  · exact ⟨Event.deregisterFailed ami.imageId ::
      (deleteSnapshotsRun beh (ebsSnapshots ami)).1, by simp [hf]⟩
  · exact ⟨(deleteSnapshotsRun beh (ebsSnapshots ami)).1, by simp [hf]⟩

/-- The all-successful call behavior. -/
def noFailBeh : Ec2Behavior := ⟨fun _ => false, fun _ => false⟩

/-! ## Claims -/

/-- Claim C3: for a candidate image with a parseable DeleteAfter date the
expiry loop deletes it exactly when today is strictly after the delete
date; an image whose DeleteAfter is exactly today is skipped, one whose
DeleteAfter is today minus one day is deleted. -/
theorem claim_C3 (beh : Ec2Behavior) (today : Date) (hv : validDate today = true)
    (hy1 : 1000 ≤ today.year) (hy2 : today.year ≤ 9999)
    (hy3 : 1000 ≤ (prevDay today).year) :
    (∀ ami s d, amiDeleteAfter ami = some s → parseDate s = some d →
      (dateLt d today = true →
        ∃ tail, (processImage beh today ami).1 = Event.deregister ami.imageId :: tail) ∧
      (dateLt d today = false → processImage beh today ami = ([], none))) ∧
    (∀ ami, amiDeleteAfter ami = some (formatDate today) →
      processImage beh today ami = ([], none)) ∧
    (∀ ami, amiDeleteAfter ami = some (formatDate (prevDay today)) →
      ∃ tail, (processImage beh today ami).1 = Event.deregister ami.imageId :: tail) := by
  have hroundtrip := parseDate_formatDate today hv hy1 hy2
  have hprevvalid := prevDay_validDate today hv
  have hprevyear := prevDay_year_le today
  have hprevround := parseDate_formatDate (prevDay today) hprevvalid hy3 (by omega)
  have hprevlt := prevDay_lt today hv (by omega)
  refine ⟨?_, ?_, ?_⟩
  · intro ami s d h1 h2
    exact ⟨expired_trace_head beh today ami s d h1 h2,
      processImage_of_skip beh today ami s d h1 h2⟩
  · intro ami h1
    exact processImage_of_skip beh today ami _ today h1 hroundtrip (dateLt_irrefl today)
  · intro ami h1
    exact expired_trace_head beh today ami _ (prevDay today) h1 hprevround hprevlt

/-- Claim C3 witness on 2024-05-15: the image dated exactly today is
skipped, the one dated yesterday is deregistered. -/
theorem claim_C3_witness :
    processImage noFailBeh ⟨2024, 5, 15⟩
      ⟨"ami-a", [⟨"DeleteAfter", "05-15-2024"⟩], []⟩ = ([], none) ∧
    (∃ tail, (processImage noFailBeh ⟨2024, 5, 15⟩
      ⟨"ami-b", [⟨"DeleteAfter", "05-14-2024"⟩], []⟩).1 =
        Event.deregister "ami-b" :: tail) := by
  have h := claim_C3 noFailBeh ⟨2024, 5, 15⟩ (by decide) (by decide) (by decide)
    (by decide)
  exact ⟨h.2.1 _ (by decide), h.2.2 _ (by decide)⟩

/-- Claim C4: the backup tags every created image with DeleteAfter equal to
today plus the retention days formatted MM-DD-YYYY, where the retention
days are the parsed Retention tag value when present and parseable and the
default 7 otherwise. -/
theorem claim_C4 (today : Date) (inst : Ec2Instance) :
    default_retention_time = 7 ∧
    (∀ t v, inst.tags.filter (fun tg => tg.key == "Retention") = [t] →
      pythonInt t.value = some v →
      Tag.mk "DeleteAfter" (formatDate (addDays today v)) ∈ imageTagsFor today inst) ∧
    (∀ t, inst.tags.filter (fun tg => tg.key == "Retention") = [t] →
      pythonInt t.value = none →
      Tag.mk "DeleteAfter" (formatDate (addDays today 7)) ∈ imageTagsFor today inst) ∧
    (inst.tags.filter (fun tg => tg.key == "Retention") = [] →
      Tag.mk "DeleteAfter" (formatDate (addDays today 7)) ∈ imageTagsFor today inst) := by
  refine ⟨rfl, ?_, ?_, ?_⟩
  · intro t v hf hp
    have hr : retentionDays inst.tags = v := by
      rw [retentionDays_of_filter_single _ t hf, hp]
    simp [imageTagsFor, hr]
  · intro t hf hp
    have hr : retentionDays inst.tags = 7 := by
      rw [retentionDays_of_filter_single _ t hf, hp]
      rfl
    simp [imageTagsFor, hr]
  · intro hf
    have hr : retentionDays inst.tags = 7 :=
      retentionDays_of_filter_nil _ hf
    simp [imageTagsFor, hr]

/-- Claim C4 witness: a Retention tag of 14 produces today + 14 days,
and an instance without a Retention tag produces today + 7 days. -/
theorem claim_C4_witness :
    Tag.mk "DeleteAfter" (formatDate (addDays ⟨2024, 1, 1⟩ 14)) ∈
      imageTagsFor ⟨2024, 1, 1⟩ ⟨"i-ret", "running", [⟨"Retention", "14"⟩]⟩ ∧
    Tag.mk "DeleteAfter" (formatDate (addDays ⟨2024, 1, 1⟩ 7)) ∈
      imageTagsFor ⟨2024, 1, 1⟩ ⟨"i-abc123", "running", [⟨"backup", "true"⟩]⟩ := by
  have h1 := claim_C4 ⟨2024, 1, 1⟩ ⟨"i-ret", "running", [⟨"Retention", "14"⟩]⟩
  have h2 := claim_C4 ⟨2024, 1, 1⟩ ⟨"i-abc123", "running", [⟨"backup", "true"⟩]⟩
  exact ⟨h1.2.1 ⟨"Retention", "14"⟩ 14 (by decide) (by decide),
    h2.2.2.2 (by decide)⟩

/-- Claim C7: the flattened instance list used for backup is exactly the
instances of all reservations whose state is not terminated, and no image
is created from a terminated instance. -/
theorem claim_C7 (today : Date) (timestamp : String)
    (reservations : List (List Ec2Instance)) :
    collectInstances reservations =
      reservations.flatten.filter (fun i => i.state != "terminated") ∧
    backupRun today timestamp reservations =
      (reservations.flatten.filter (fun i => i.state != "terminated")).flatMap
        (backupOneInstance today timestamp) ∧
    (∀ inst ∈ reservations.flatten, inst.state = "terminated" →
      ¬ inst ∈ collectInstances reservations) := by
  refine ⟨collectInstances_eq reservations, ?_, ?_⟩
  · rw [backupRun, collectInstances_eq]
  · intro inst hmem hterm hin
    rw [collectInstances_eq] at hin
    rw [List.mem_filter] at hin
    simp [hterm] at hin

/-- Claim C7 witness: a terminated instance from the listing is excluded
from the backup list. -/
theorem claim_C7_witness :
    ¬ (Ec2Instance.mk "i-2" "terminated" []) ∈ collectInstances
      [[Ec2Instance.mk "i-1" "running" [], Ec2Instance.mk "i-2" "terminated" []]] :=
  (claim_C7 ⟨2024, 1, 1⟩ "t"
    [[Ec2Instance.mk "i-1" "running" [], Ec2Instance.mk "i-2" "terminated" []]]).2.2
    _ (by decide) rfl

/-- Claim C8: for an expired image the trace is the deregistration attempt
followed by the snapshot deletions — deregistration comes strictly first,
and a failed deregistration (recorded, caught) still proceeds to the
snapshot deletions. -/
theorem claim_C8 (beh : Ec2Behavior) (today : Date) (ami : Image) (s : String)
    (d : Date) (h1 : amiDeleteAfter ami = some s) (h2 : parseDate s = some d)
    (h3 : dateLt d today = true) :
    (processImage beh today ami).1 =
      (if beh.deregisterFails ami.imageId then
        [Event.deregister ami.imageId, Event.deregisterFailed ami.imageId]
      else [Event.deregister ami.imageId]) ++
      (deleteSnapshotsRun beh (ebsSnapshots ami)).1 ∧
    (∀ e ∈ (if beh.deregisterFails ami.imageId then
        [Event.deregister ami.imageId, Event.deregisterFailed ami.imageId]
      else [Event.deregister ami.imageId]), ∀ sid, ¬ e = Event.deleteSnapshot sid) ∧
    (∀ e ∈ (deleteSnapshotsRun beh (ebsSnapshots ami)).1,
      ∃ sid, e = Event.deleteSnapshot sid) := by
  refine ⟨by rw [processImage_of_expired beh today ami s d h1 h2 h3], ?_,
    deleteSnapshotsRun_events beh _⟩
  intro e he sid heq
  subst heq
  by_cases hf : beh.deregisterFails ami.imageId <;> simp [hf] at he

/-- Claim C8 witness: even with a failing deregistration the snapshot of
the expired image is still deleted, after the deregistration attempt. -/
theorem claim_C8_witness :
    (processImage ⟨fun _ => true, fun _ => false⟩ ⟨2024, 1, 2⟩
      ⟨"ami-1", [⟨"DeleteAfter", "01-01-2024"⟩], [⟨some "snap-1"⟩]⟩).1 =
      [Event.deregister "ami-1", Event.deregisterFailed "ami-1",
       Event.deleteSnapshot "snap-1"] := by
  have h := claim_C8 ⟨fun _ => true, fun _ => false⟩ ⟨2024, 1, 2⟩
    ⟨"ami-1", [⟨"DeleteAfter", "01-01-2024"⟩], [⟨some "snap-1"⟩]⟩
    "01-01-2024" ⟨2024, 1, 1⟩ (by decide) (by decide) (by decide)
  rw [h.1]
  decide

/-- Claim C5: every created image is tagged with the source instance's tags
plus exactly the three tags DeleteAfter (parseable as MM-DD-YYYY),
OriginalInstanceID and the management marker set to true, so it satisfies
the expiry listing filter. -/
theorem claim_C5 (today : Date) (inst : Ec2Instance) (hv : validDate today = true)
    (hy1 : 1000 ≤ (addDays today (retentionDays inst.tags)).year)
    (hy2 : (addDays today (retentionDays inst.tags)).year ≤ 9999) :
    imageTagsFor today inst =
      inst.tags ++
        [Tag.mk "DeleteAfter" (formatDate (addDays today (retentionDays inst.tags))),
         Tag.mk "OriginalInstanceID" inst.instanceId,
         Tag.mk global_key_to_tag_on "true"] ∧
    parseDate (formatDate (addDays today (retentionDays inst.tags))) =
      some (addDays today (retentionDays inst.tags)) ∧
    (imageTagsFor today inst).any (fun t => t.key == global_key_to_tag_on) = true := by
  refine ⟨rfl,
    parseDate_formatDate _ (addDays_validDate today _ hv) hy1 hy2, ?_⟩
  simp [imageTagsFor, List.any_append]

/-- Claim C5 witness: the end-to-end scenario instance (no Retention tag,
run date 2024-01-01) yields a DeleteAfter of 01-08-2024 that parses back. -/
theorem claim_C5_witness :
    imageTagsFor ⟨2024, 1, 1⟩ ⟨"i-abc123", "running", [⟨"Name", "web1"⟩]⟩ =
      [Tag.mk "Name" "web1", Tag.mk "DeleteAfter" "01-08-2024",
       Tag.mk "OriginalInstanceID" "i-abc123",
       Tag.mk global_key_to_tag_on "true"] ∧
    parseDate (formatDate (addDays ⟨2024, 1, 1⟩
      (retentionDays [⟨"Name", "web1"⟩]))) =
      some (addDays ⟨2024, 1, 1⟩ (retentionDays [⟨"Name", "web1"⟩])) := by
  have h := claim_C5 ⟨2024, 1, 1⟩ ⟨"i-abc123", "running", [⟨"Name", "web1"⟩]⟩
    (by decide) (by decide) (by decide)
  refine ⟨?_, h.2.1⟩
  rw [h.1]
  decide

/-- Claim C9: a Retention tag parsing as a negative integer is accepted
as-is, DeleteAfter becomes a date strictly in the past, and an image so
tagged is deleted by the expiry loop run on the same day. -/
theorem claim_C9 (beh : Ec2Behavior) (today : Date) (inst : Ec2Instance) (t : Tag)
    (n : Nat) (hf : inst.tags.filter (fun tg => tg.key == "Retention") = [t])
    (hp : pythonInt t.value = some (Int.negSucc n))
    (hv : validDate today = true)
    (hy1 : 1000 ≤ (addDays today (Int.negSucc n)).year)
    (hy2 : (addDays today (Int.negSucc n)).year ≤ 9999) :
    retentionDays inst.tags = Int.negSucc n ∧
    Tag.mk "DeleteAfter" (formatDate (addDays today (Int.negSucc n))) ∈
      imageTagsFor today inst ∧
    dateLt (addDays today (Int.negSucc n)) today = true ∧
    (∀ ami, amiDeleteAfter ami = some (formatDate (addDays today (Int.negSucc n))) →
      ∃ tail, (processImage beh today ami).1 = Event.deregister ami.imageId :: tail) := by
  have hr : retentionDays inst.tags = Int.negSucc n := by
    rw [retentionDays_of_filter_single _ t hf, hp]
  have hparse : parseDate (formatDate (addDays today (Int.negSucc n))) =
      some (addDays today (Int.negSucc n)) :=
    parseDate_formatDate _ (addDays_validDate today _ hv) hy1 hy2
  have hlt := addDays_negSucc_lt today n hv (by omega)
  refine ⟨hr, ?_, hlt,
    fun ami h1 => expired_trace_head beh today ami _ _ h1 hparse hlt⟩
  simp [imageTagsFor, hr]

/-- Claim C9 witness: Retention "-3" on 2024-05-15 gives retention -3,
DeleteAfter 05-12-2024 in the past, and that image is deregistered the
same day. -/
theorem claim_C9_witness :
    retentionDays [⟨"Retention", "-3"⟩] = Int.negSucc 2 ∧
    dateLt (addDays ⟨2024, 5, 15⟩ (Int.negSucc 2)) ⟨2024, 5, 15⟩ = true ∧
    (∃ tail, (processImage noFailBeh ⟨2024, 5, 15⟩
      ⟨"ami-n", [⟨"DeleteAfter", "05-12-2024"⟩], []⟩).1 =
        Event.deregister "ami-n" :: tail) := by
  have h := claim_C9 noFailBeh ⟨2024, 5, 15⟩
    ⟨"i-neg", "running", [⟨"Retention", "-3"⟩]⟩ ⟨"Retention", "-3"⟩ 2
    (by decide) (by decide) (by decide) (by decide) (by decide)
  exact ⟨h.1, h.2.2.1, h.2.2.2 _ (by decide)⟩

/-- Claim C10: the expiry comparison is by parsed structured dates — the
struct comparison of two parsed dates equals calendar order (year, then
month, then day), and the skip decision for a parseable DeleteAfter agrees
with that calendar order. -/
theorem claim_C10 (beh : Ec2Behavior) (today : Date) :
    (∀ d1 d2 : Date,
      structTimeLe (dateToStructTime d1) (dateToStructTime d2) = dateLe d1 d2) ∧
    (∀ ami s d, amiDeleteAfter ami = some s → parseDate s = some d →
      (processImage beh today ami = ([], none) ↔ dateLe today d = true)) := by
  refine ⟨structTimeLe_eq_dateLe, ?_⟩
  intro ami s d h1 h2
  constructor
  · intro hskip
    by_contra hnle
    have hfalse : dateLe today d = false := Bool.eq_false_iff.mpr hnle
    have hlt : dateLt d today = true := by
      rw [dateLe_eq_not_dateLt] at hfalse
      cases hb : dateLt d today
      · rw [hb] at hfalse; simp at hfalse
      · rfl
    obtain ⟨tail, htr⟩ := expired_trace_head beh today ami s d h1 h2 hlt
    rw [hskip] at htr
    simp at htr
  · intro hle
    exact processImage_of_skip beh today ami s d h1 h2
      ((dateLe_true_iff_not_lt today d).mp hle)

/-- Claim C10 witness: 12-31-2023 sorts after 01-01-2024 as a string, but
the parsed comparison follows calendar order and the image is deleted. -/
theorem claim_C10_witness :
    structTimeLe (dateToStructTime ⟨2024, 1, 1⟩) (dateToStructTime ⟨2023, 12, 31⟩) =
      dateLe ⟨2024, 1, 1⟩ ⟨2023, 12, 31⟩ ∧
    (processImage noFailBeh ⟨2024, 1, 1⟩
      ⟨"ami-1", [⟨"DeleteAfter", "12-31-2023"⟩], []⟩ = ([], none) ↔
      dateLe ⟨2024, 1, 1⟩ ⟨2023, 12, 31⟩ = true) :=
  ⟨(claim_C10 noFailBeh ⟨2024, 1, 1⟩).1 _ _,
   (claim_C10 noFailBeh ⟨2024, 1, 1⟩).2 _ "12-31-2023" ⟨2023, 12, 31⟩
     (by decide) (by decide)⟩

/-- Claim C6: an OptInRequired listing failure makes each procedure a
no-op success — in particular the expiry still runs after the backup
returns early — while any other listing failure propagates and aborts
the region run. -/
theorem claim_C6 (env : RegionEnv) (msg : String) :
    (env.instancesListing = Except.error msg → mentionsOptIn msg = true →
      backupProcedure env = ([], none) ∧ runRegion env = expiryProcedure env) ∧
    (env.instancesListing = Except.error msg → mentionsOptIn msg = false →
      runRegion env = ([], some msg)) ∧
    (env.imagesListing = Except.error msg → mentionsOptIn msg = true →
      expiryProcedure env = ([], none)) ∧
    (env.imagesListing = Except.error msg → mentionsOptIn msg = false →
      expiryProcedure env = ([], some msg)) := by
  refine ⟨?_, ?_, ?_, ?_⟩
  · intro h ho
    have hb : backupProcedure env = ([], none) := by simp [backupProcedure, h, ho]
    refine ⟨hb, ?_⟩
    rw [runRegion, hb]
    cases hx : expiryProcedure env with
    | mk evs2 err2 => simp
  · intro h ho
    simp [runRegion, backupProcedure, h, ho]
  · intro h ho
    simp [expiryProcedure, h, ho]
  · intro h ho
    simp [expiryProcedure, h, ho]

/-- Claim C6 witness: with both listings failing with an OptInRequired
error, the backup is a silent no-op, the expiry still executes, and it is
a silent no-op too; with a different error the region run aborts. -/
theorem claim_C6_witness :
    backupProcedure ⟨Except.error "(OptInRequired) opt-in",
      Except.error "(OptInRequired) opt-in", noFailBeh, ⟨2024, 1, 1⟩, "ts"⟩ =
      ([], none) ∧
    runRegion ⟨Except.error "(OptInRequired) opt-in",
      Except.error "(OptInRequired) opt-in", noFailBeh, ⟨2024, 1, 1⟩, "ts"⟩ =
      expiryProcedure ⟨Except.error "(OptInRequired) opt-in",
        Except.error "(OptInRequired) opt-in", noFailBeh, ⟨2024, 1, 1⟩, "ts"⟩ ∧
    expiryProcedure ⟨Except.error "(OptInRequired) opt-in",
      Except.error "(OptInRequired) opt-in", noFailBeh, ⟨2024, 1, 1⟩, "ts"⟩ =
      ([], none) ∧
    runRegion ⟨Except.error "(AccessDenied) nope",
      Except.error "(OptInRequired) opt-in", noFailBeh, ⟨2024, 1, 1⟩, "ts"⟩ =
      ([], some "(AccessDenied) nope") := by
  have h1 := claim_C6 ⟨Except.error "(OptInRequired) opt-in",
    Except.error "(OptInRequired) opt-in", noFailBeh, ⟨2024, 1, 1⟩, "ts"⟩
    "(OptInRequired) opt-in"
  have h2 := claim_C6 ⟨Except.error "(AccessDenied) nope",
    Except.error "(OptInRequired) opt-in", noFailBeh, ⟨2024, 1, 1⟩, "ts"⟩
    "(AccessDenied) nope"
  exact ⟨(h1.1 rfl (by decide)).1, (h1.1 rfl (by decide)).2,
    h1.2.2.1 rfl (by decide), h2.2.1 rfl (by decide)⟩

/-- Claim C1 counterexample: an expired image has two EBS-backed snapshots
and deleting the first fails; the second snapshot is never attempted and
the loop aborts with the error, so snapshot deletions are not independent. -/
theorem claim_C1_counterexample :
    runExpiry ⟨fun _ => false, fun sid => sid == "snap-1"⟩ ⟨2024, 1, 2⟩
      [⟨"ami-1", [⟨"DeleteAfter", "01-01-2024"⟩],
        [⟨some "snap-1"⟩, ⟨some "snap-2"⟩]⟩] =
      ([Event.deregister "ami-1", Event.deleteSnapshot "snap-1"],
       some snapshotErrorMsg) ∧
    ¬ Event.deleteSnapshot "snap-2" ∈
      (runExpiry ⟨fun _ => false, fun sid => sid == "snap-1"⟩ ⟨2024, 1, 2⟩
        [⟨"ami-1", [⟨"DeleteAfter", "01-01-2024"⟩],
          [⟨some "snap-1"⟩, ⟨some "snap-2"⟩]⟩]).1 := by
  decide

/-- Claim C1 (amended): for an expired image, the EBS-backed snapshots are
attempted in order, but a deletion failure is uncaught — it aborts after
the failing call, so the image's remaining snapshots and all later images
are not attempted. -/
theorem claim_C1_amended (beh : Ec2Behavior) (today : Date) (ami : Image)
    (rest : List Image) (s : String) (d : Date) (sid : String)
    (pre post : List String)
    (h1 : amiDeleteAfter ami = some s) (h2 : parseDate s = some d)
    (h3 : dateLt d today = true)
    (h4 : ebsSnapshots ami = pre ++ sid :: post)
    (h5 : ∀ x ∈ pre, beh.deleteSnapshotFails x = false)
    (h6 : beh.deleteSnapshotFails sid = true) :
    runExpiry beh today (ami :: rest) =
      ((if beh.deregisterFails ami.imageId then
          [Event.deregister ami.imageId, Event.deregisterFailed ami.imageId]
        else [Event.deregister ami.imageId]) ++
        (pre.map Event.deleteSnapshot ++ [Event.deleteSnapshot sid]),
       some snapshotErrorMsg) := by
  have hds := deleteSnapshotsRun_stop beh pre sid post h5 h6
  have hp := processImage_of_expired beh today ami s d h1 h2 h3
  rw [h4, hds] at hp
  dsimp only at hp
  exact runExpiry_cons_raise beh today ami rest _ _ hp

/-- Claim C1 amended witness: the snapshot before the failing one is
attempted, the failing one is attempted, and nothing afterwards runs. -/
theorem claim_C1_amended_witness :
    runExpiry ⟨fun _ => false, fun sid => sid == "snap-1"⟩ ⟨2024, 1, 2⟩
      [⟨"ami-1", [⟨"DeleteAfter", "01-01-2024"⟩],
        [⟨some "snap-0"⟩, ⟨some "snap-1"⟩, ⟨some "snap-2"⟩]⟩,
       ⟨"ami-2", [⟨"DeleteAfter", "01-01-2024"⟩], []⟩] =
      ([Event.deregister "ami-1", Event.deleteSnapshot "snap-0",
        Event.deleteSnapshot "snap-1"], some snapshotErrorMsg) := by
  have h := claim_C1_amended ⟨fun _ => false, fun sid => sid == "snap-1"⟩
    ⟨2024, 1, 2⟩
    ⟨"ami-1", [⟨"DeleteAfter", "01-01-2024"⟩],
      [⟨some "snap-0"⟩, ⟨some "snap-1"⟩, ⟨some "snap-2"⟩]⟩
    [⟨"ami-2", [⟨"DeleteAfter", "01-01-2024"⟩], []⟩]
    "01-01-2024" ⟨2024, 1, 1⟩ "snap-1" ["snap-0"] ["snap-2"]
    (by decide) (by decide) (by decide) (by decide) (by decide) (by decide)
  rw [h]
  decide

/-- Claim C2 counterexample: an image with an unparseable DeleteAfter is
itself not deleted, but the parse error aborts the loop, so the following
expired image is never processed. -/
theorem claim_C2_counterexample :
    runExpiry noFailBeh ⟨2024, 1, 2⟩
      [⟨"ami-bad", [⟨"DeleteAfter", "not-a-date"⟩], []⟩,
       ⟨"ami-good", [⟨"DeleteAfter", "01-01-2024"⟩], []⟩] =
      ([], some valueErrorMsg) ∧
    (runExpiry noFailBeh ⟨2024, 1, 2⟩
      [⟨"ami-good", [⟨"DeleteAfter", "01-01-2024"⟩], []⟩]).1 =
      [Event.deregister "ami-good"] := by
  decide

/-- Claim C2 (amended): an image with no DeleteAfter tag is skipped and
the loop continues, and an image with a present but unparseable
DeleteAfter is not deleted — but the strptime error propagates, aborting
the remaining candidate images. -/
theorem claim_C2_amended (beh : Ec2Behavior) (today : Date) (ami : Image)
    (rest : List Image) :
    (amiDeleteAfter ami = none →
      runExpiry beh today (ami :: rest) = runExpiry beh today rest) ∧
    (∀ s, amiDeleteAfter ami = some s → parseDate s = none →
      runExpiry beh today (ami :: rest) = ([], some valueErrorMsg)) := by
  constructor
  · intro h
    rw [runExpiry_cons_ok beh today ami rest []
      (processImage_of_absent beh today ami h)]
    simp
  · intro s h1 h2
    exact runExpiry_cons_raise beh today ami rest [] valueErrorMsg
      (processImage_of_badparse beh today ami s h1 h2)

/-- Claim C2 amended witness: a tagless image is skipped with the loop
continuing, while an unparseable DeleteAfter aborts the whole loop. -/
theorem claim_C2_amended_witness :
    runExpiry noFailBeh ⟨2024, 1, 2⟩
      [⟨"ami-no", [], []⟩, ⟨"ami-good", [⟨"DeleteAfter", "01-01-2024"⟩], []⟩] =
      runExpiry noFailBeh ⟨2024, 1, 2⟩
        [⟨"ami-good", [⟨"DeleteAfter", "01-01-2024"⟩], []⟩] ∧
    runExpiry noFailBeh ⟨2024, 1, 2⟩
      [⟨"ami-x", [⟨"DeleteAfter", "garbage"⟩], []⟩,
       ⟨"ami-good", [⟨"DeleteAfter", "01-01-2024"⟩], []⟩] =
      ([], some valueErrorMsg) :=
  ⟨(claim_C2_amended noFailBeh ⟨2024, 1, 2⟩ ⟨"ami-no", [], []⟩
      [⟨"ami-good", [⟨"DeleteAfter", "01-01-2024"⟩], []⟩]).1 rfl,
   (claim_C2_amended noFailBeh ⟨2024, 1, 2⟩
      ⟨"ami-x", [⟨"DeleteAfter", "garbage"⟩], []⟩
      [⟨"ami-good", [⟨"DeleteAfter", "01-01-2024"⟩], []⟩]).2 "garbage" rfl
      (by decide)⟩
